import Mathlib

/-!
Shallow embedding of the refacdir backup engine (src/refacdir/backup) and
proofs about its behaviour.  File contents are modelled as lists of bytes
(`List Nat`); the streaming SHA-256 calls are modelled by the exact byte
sequence fed to the hash object across the loop (the digest of a run is a
function of that sequence), so statements about which bytes are hashed
translate directly to statements about the resulting hex digest.
-/

namespace Refacdir

/-- A file's content as a sequence of bytes. -/
abbrev Content := List Nat

/-- Generic association list lookup (first binding wins), used to model the
Python dictionaries of the backup engine. -/
def alGet {α : Type} : List (String × α) → String → Option α
  | [], _ => none
  | e :: rest, k => if e.1 = k then some e.2 else alGet rest k

/-- Remove every binding of a key from an association list. -/
def alRemove {α : Type} : List (String × α) → String → List (String × α)
  | [], _ => []
  | e :: rest, k => if e.1 = k then alRemove rest k else e :: alRemove rest k

/-- Set a key to a value in an association list. -/
def alSet {α : Type} (l : List (String × α)) (k : String) (v : α) : List (String × α) :=
  (k, v) :: alRemove l k

theorem alGet_alSet_self {α : Type} (l : List (String × α)) (k : String) (v : α) :
    alGet (alSet l k v) k = some v := by
  simp [alSet, alGet]

theorem alGet_alRemove_self {α : Type} (l : List (String × α)) (k : String) :
    alGet (alRemove l k) k = none := by
  induction l with
  | nil => simp [alRemove, alGet]
  | cons e rest ih =>
    by_cases h : e.1 = k
    · simpa [alRemove, h] using ih
    · simp [alRemove, alGet, h, ih]

theorem alGet_alRemove_ne {α : Type} (l : List (String × α)) (k q : String) (h : q ≠ k) :
    alGet (alRemove l k) q = alGet l q := by
  induction l with
  | nil => simp [alRemove]
  | cons e rest ih =>
    by_cases he : e.1 = k
    · have hq : e.1 ≠ q := fun hh => h (hh ▸ he)
      rw [alRemove, if_pos he, ih, alGet, if_neg hq]
    · rw [alRemove, if_neg he]
      by_cases hq : e.1 = q
      · rw [alGet, if_pos hq, alGet, if_pos hq]
      · rw [alGet, if_neg hq, alGet, if_neg hq, ih]

theorem alGet_alSet_ne {α : Type} (l : List (String × α)) (k q : String) (v : α) (h : q ≠ k) :
    alGet (alSet l k v) q = alGet l q := by
  simp [alSet, alGet, Ne.symm h, alGet_alRemove_ne l k q h]

/-! ## C1 — content hashing

`SafeFileOps.calculate_file_hash` (src/refacdir/backup/safe_file_ops.py:16-26)
reads `chunk_size` bytes at a time and calls `sha256.update(data)` on each
chunk until a read returns empty.  We model the byte stream fed to the hash
object: the digest returned is SHA-256 of exactly these bytes. -/

/-- Bytes fed to SHA-256 by `SafeFileOps.calculate_file_hash`: each loop
iteration reads a chunk and updates the hash with that chunk. -/
def safeFileOpsFedBytes (chunkSize : Nat) (content : Content) : Content :=
  if h : content.take chunkSize = [] then []
  else content.take chunkSize ++ safeFileOpsFedBytes chunkSize (content.drop chunkSize)
termination_by content.length
decreasing_by
  simp only [List.take_eq_nil_iff, not_or] at h
  rcases content with _ | ⟨b, rest⟩
  · exact absurd rfl h.2
  · simp only [List.length_drop, List.length_cons]
    rcases chunkSize with _ | m
    · exact absurd rfl h.1
    · omega

/-- Loop body of `BackupMapping._calculate_hash`
(src/refacdir/backup/backup_mapping.py:101-108).  The loop reads
`data = f.read(65536)`, breaks when `data` is empty, but then calls
`sha256.update(f.read())` — feeding the *remainder* of the file after the
chunk (and advancing the file position to EOF), never `data` itself.
`remaining` is the unread suffix of the file at the current position and
`acc` the bytes fed to the hash object so far. -/
def mappingHashLoop (remaining acc : Content) : Content :=
  if h : remaining.take 65536 = [] then acc
  else mappingHashLoop [] (acc ++ remaining.drop 65536)
termination_by remaining.length
decreasing_by
  simp only [List.take_eq_nil_iff, not_or] at h
  rcases remaining with _ | ⟨b, rest⟩
  · exact absurd rfl h.2
  · simp

/-- Bytes fed to SHA-256 by `BackupMapping._calculate_hash` on a file with
the given content. -/
def mappingCalculateHashFedBytes (content : Content) : Content :=
  mappingHashLoop content []

/-- For every positive chunk size, `SafeFileOps.calculate_file_hash` feeds the
entire file content to SHA-256, so its digest is the SHA-256 hex digest of the
whole file. -/
theorem safeFileOpsFedBytes_eq (chunkSize : Nat) (hpos : 0 < chunkSize) :
    ∀ content : Content, safeFileOpsFedBytes chunkSize content = content := by
  have H : ∀ n : Nat, ∀ content : Content, content.length = n →
      safeFileOpsFedBytes chunkSize content = content := by
    intro n
    induction n using Nat.strong_induction_on with
    | _ n ih =>
      intro content hn
      rcases content with _ | ⟨b, rest⟩
      · rw [safeFileOpsFedBytes]
        simp
      · have htake : ¬ (b :: rest).take chunkSize = [] := by
          rcases chunkSize with _ | m
          · omega
          · simp [List.take_succ_cons]
        rw [safeFileOpsFedBytes, dif_neg htake]
        have hlen : ((b :: rest).drop chunkSize).length < n := by
          rw [← hn]
          simp only [List.length_drop, List.length_cons]
          omega
        rw [ih _ hlen _ rfl]
        exact List.take_append_drop chunkSize (b :: rest)
  intro content
  exact H content.length content rfl

/-- The `_calculate_hash` loop feeds only the bytes after the first chunk:
on a nonempty file it hashes `content.drop 65536` instead of `content`. -/
theorem mappingCalculateHashFedBytes_eq (b : Nat) (rest : Content) :
    mappingCalculateHashFedBytes (b :: rest) = (b :: rest).drop 65536 := by
  have htake : ¬ (b :: rest).take 65536 = [] := by simp [List.take_succ_cons]
  rw [mappingCalculateHashFedBytes, mappingHashLoop, dif_neg htake, mappingHashLoop,
    dif_pos (by simp)]
  simp

/-- Claim C1: the content-hash identity used to compare files is claimed to be
the SHA-256 hex digest of the file's entire content.  This fails for
`BackupMapping._calculate_hash`: on the one-byte files with contents `[97]`
("a") and `[98]` ("b") it feeds the empty byte string to SHA-256 (the first
64KiB chunk is read into `data` but never hashed), so both files receive the
digest of the empty string — equal identities for unequal contents — whereas
`SafeFileOps.calculate_file_hash` correctly feeds the whole content. -/
theorem c1_calculate_hash_drops_first_chunk :
    mappingCalculateHashFedBytes [97] = [] ∧
    mappingCalculateHashFedBytes [98] = [] ∧
    mappingCalculateHashFedBytes [97] = mappingCalculateHashFedBytes [98] ∧
    mappingCalculateHashFedBytes [97] ≠ [97] ∧
    safeFileOpsFedBytes 65536 [97] = [97] := by
  refine ⟨?_, ?_, ?_, ?_, ?_⟩
  · rw [mappingCalculateHashFedBytes_eq]; rfl
  · rw [mappingCalculateHashFedBytes_eq]; rfl
  · rw [mappingCalculateHashFedBytes_eq, mappingCalculateHashFedBytes_eq]; rfl
  · rw [mappingCalculateHashFedBytes_eq]; simp
  · exact safeFileOpsFedBytes_eq 65536 (by omega) [97]

/-! ## C2 — BackupTransaction

`BackupTransaction` is imported by src/test/backup/test_backup_transaction.py
from `refacdir.backup.backup_mapping` but is not defined anywhere under src,
so the transaction layer is modelled from the spec (sections 3 and 4.3). -/

/-- Outcome of running one transaction operation: it returns success, returns
a failure carrying a message, or raises an exception carrying a message. -/
inductive OpOutcome
  | ok
  | failed (msg : String)
  | raised (msg : String)
deriving Repr, DecidableEq, Inhabited

/-- Behaviour of the rollback registered with a step: absent (the tests pass
`None`), succeeding, or raising an exception when invoked. -/
inductive RollbackSpec
  | absent
  | succeeds
  | raises (msg : String)
deriving Repr, DecidableEq, Inhabited

/-- Modelled from the spec: a `BackupTransaction` step, one entry of the
"ordered list of (operation, arguments, inverse-action) triples" of spec
section 3; the operation and its arguments are represented by the outcome
of calling the operation on those arguments. -/
structure TxStep where
  outcome : OpOutcome
  rollback : RollbackSpec
deriving Repr, DecidableEq, Inhabited

/-- Result of `BackupTransaction.execute()`: the returned (success, error)
pair, plus the observable trace — indices of the steps that were run, in
order, and indices whose rollback was invoked, in invocation order. -/
structure TxResult where
  success : Bool
  error : Option String
  ran : List Nat
  rolledBack : List Nat
deriving Repr, DecidableEq

/-- Error message carried by a non-ok outcome. -/
def OpOutcome.errMsg : OpOutcome → String
  | .ok => ""
  | .failed msg => msg
  | .raised msg => msg

/-- Modelled from the spec: `BackupTransaction.execute()` (spec section 4.3)
runs the steps in order; on the first step that fails or raises it invokes
the rollback of every previously completed step in reverse completion order
(a raising rollback is caught and does not stop the remaining rollbacks, so
it still appears in `rolledBack` and execution still returns), runs no later
step, and returns failure with the triggering error.  The recursion unwinds
the completed prefix, so rollbacks of later-completed steps are appended
before earlier-completed ones. -/
def executeFrom : List TxStep → Nat → TxResult
  | [], _ => { success := true, error := none, ran := [], rolledBack := [] }
  | step :: rest, i =>
    match step.outcome with
    | .ok =>
      let r := executeFrom rest (i + 1)
      if r.success then
        { success := true, error := none, ran := i :: r.ran, rolledBack := [] }
      else
        { success := false, error := r.error, ran := i :: r.ran,
          rolledBack := r.rolledBack ++ (if step.rollback = RollbackSpec.absent then [] else [i]) }
    | .failed msg => { success := false, error := some msg, ran := [i], rolledBack := [] }
    | .raised msg => { success := false, error := some msg, ran := [i], rolledBack := [] }

/-- Modelled from the spec: `BackupTransaction.execute()` over the whole
step list, with steps numbered from 0. -/
def execute (steps : List TxStep) : TxResult := executeFrom steps 0

/-- Indices, in completion order starting at `i`, of the steps of a completed
prefix that have a rollback registered. -/
def completedWithRollback : Nat → List TxStep → List Nat
  | _, [] => []
  | i, s :: rest =>
    (if s.rollback = RollbackSpec.absent then [] else [i]) ++ completedWithRollback (i + 1) rest

theorem executeFrom_spec (step : TxStep) (hstep : step.outcome ≠ OpOutcome.ok) :
    ∀ (pre : List TxStep) (post : List TxStep) (i : Nat),
      (∀ s ∈ pre, s.outcome = OpOutcome.ok) →
      executeFrom (pre ++ step :: post) i =
        { success := false, error := some step.outcome.errMsg,
          ran := List.range' i (pre.length + 1),
          rolledBack := (completedWithRollback i pre).reverse } := by
  intro pre
  induction pre with
  | nil =>
    intro post i _
    rcases hout : step.outcome with _ | msg | msg
    · exact absurd hout hstep
    · simp [executeFrom, hout, OpOutcome.errMsg, completedWithRollback, List.range'_succ]
    · simp [executeFrom, hout, OpOutcome.errMsg, completedWithRollback, List.range'_succ]
  | cons s rest ih =>
    intro post i hpre
    have hs : s.outcome = OpOutcome.ok := hpre s (by simp)
    have hrest : ∀ x ∈ rest, x.outcome = OpOutcome.ok := fun x hx => hpre x (by simp [hx])
    have hr := ih post (i + 1) hrest
    rw [List.cons_append, executeFrom, hs, hr]
    simp only [List.length_cons, completedWithRollback, List.reverse_append]
    by_cases hrb : s.rollback = RollbackSpec.absent
    · simp [hrb, List.range'_succ]
    · simp [hrb, List.range'_succ]

/-- Claim C2: for every transaction built from steps, on the first step that
fails or raises, `execute()` has run exactly the steps up to and including
that one in order, invokes the rollback of every previously completed step
that has one in reverse completion order (raising rollbacks are caught and
still invoked), runs no later step, and returns a failure carrying the
triggering error; execute() always returns (it is a total function). -/
theorem c2_transaction_execute_rolls_back (pre post : List TxStep) (step : TxStep)
    (hpre : ∀ s ∈ pre, s.outcome = OpOutcome.ok) (hstep : step.outcome ≠ OpOutcome.ok) :
    execute (pre ++ step :: post) =
      { success := false, error := some step.outcome.errMsg,
        ran := List.range (pre.length + 1),
        rolledBack := (completedWithRollback 0 pre).reverse } := by
  rw [execute, executeFrom_spec step hstep pre post 0 hpre, List.range_eq_range']

/-- Witness for C2 at a concrete three-step transaction mirroring
test_failed_transaction: step 0 succeeds with a rollback, step 1 fails with
"Operation failed" and no rollback, step 2 never runs; step 0 is rolled
back. -/
theorem c2_transaction_execute_rolls_back_witness :
    execute [⟨OpOutcome.ok, RollbackSpec.succeeds⟩,
             ⟨OpOutcome.failed "Operation failed", RollbackSpec.absent⟩,
             ⟨OpOutcome.ok, RollbackSpec.succeeds⟩] =
      { success := false, error := some "Operation failed", ran := [0, 1], rolledBack := [0] } :=
  (c2_transaction_execute_rolls_back
    [⟨OpOutcome.ok, RollbackSpec.succeeds⟩]
    [⟨OpOutcome.ok, RollbackSpec.succeeds⟩]
    ⟨OpOutcome.failed "Operation failed", RollbackSpec.absent⟩
    (by decide) (by decide)).trans (by decide)

/-! ## C3 — SnapshotStore lock (BackupSourceData.acquire_lock) -/

/-- Result of `BackupSourceData.acquire_lock`
(src/refacdir/backup/backup_source_data.py:283-304): either the call returns
normally or it raises `BackupLockError("Failed to acquire backup lock")`. -/
inductive AcquireOutcome
  | acquired
  | lockError
deriving Repr, DecidableEq

/-- Model of `os.open(self.lock_file, os.O_CREAT | os.O_RDWR)`
(backup_source_data.py:296): with `O_CREAT` and without `O_EXCL` the call
succeeds whether or not the lock file already exists (creating it if
absent) and never fails with EAGAIN; the `fcntl.flock` call that would make
the acquisition exclusive is commented out (lines 26-27 and 297).  The
result is the lock-file existence after the call. -/
def osOpenCreatRdwr (lockFileExists : Bool) : Bool :=
  true

/-- Embedding of `BackupSourceData.acquire_lock(timeout)`: the `while True`
loop tries `os.open` first; since that call succeeds unconditionally, the
loop returns on its first iteration — the timeout branch raising
`BackupLockError` is unreachable.  Input: whether the lock file currently
exists (i.e. whether another handle holds the lock); output: the outcome
and the lock-file existence afterwards. -/
def acquire_lock (lockFileExists : Bool) (timeout : Nat) : AcquireOutcome × Bool :=
  (AcquireOutcome.acquired, osOpenCreatRdwr lockFileExists)

/-- Claim C3 (code bug): while a first handle holds the lock (the lock file
exists), a second handle's `acquire_lock(timeout=1)` returns `acquired`
immediately instead of waiting and raising the lock error; with the flock
call commented out there is no mutual exclusion at all. -/
theorem c3_second_acquire_succeeds_instead_of_lock_error :
    acquire_lock true 1 = (AcquireOutcome.acquired, true) ∧
    (acquire_lock true 1).fst ≠ AcquireOutcome.lockError := by
  decide

/-! ## C4 — partial restore of the live hash index -/

/-- A hash index: identity string mapped to the list of file paths sharing
it (`hash_dict`, a `defaultdict(list)`). -/
abbrev HashDict := List (String × List String)

/-- `hash_dict[h]` on a `defaultdict(list)`: missing keys read as `[]`. -/
def dictFiles (d : HashDict) (h : String) : List String := (alGet d h).getD []

/-- `set(sum(hash_dict.values(), []))`: every file path tracked by an
index (membership is all that matters for the set). -/
def filesOfDict (d : HashDict) : List String := (d.map Prod.snd).flatten

/-- Embedding of the `if files:` branch of
`BackupSourceData.restore_from_backup` (backup_source_data.py:809-828): maps
the live index `current` and the chosen backup's index `backupDict` to the
new live index.  `_get_files_from_backup` yields the backup's file set,
which equals `filesOfDict backupDict` (`metadata.files` is recorded as
`set(sum(self.hash_dict.values(), []))` when the backup is written).  The
new index is built by iterating the hashes of `backupDict` only. -/
def restoreFileSubset (current backupDict : HashDict) (files : List String) :
    Except String HashDict :=
  let backupFiles := filesOfDict backupDict
  let invalid := files.filter (fun f => ¬ backupFiles.contains f)
  if invalid ≠ [] then
    Except.error "Files not found in backup"
  else
    let currentFiles := filesOfDict current
    let filesToKeep := currentFiles.filter (fun f => ¬ files.contains f)
    Except.ok <| backupDict.foldl (fun acc entry =>
      let restored := entry.2.filter (fun f => files.contains f)
      let kept := (dictFiles current entry.1).filter (fun f => filesToKeep.contains f)
      if restored ≠ [] ∨ kept ≠ [] then acc ++ [(entry.1, restored ++ kept)] else acc) []

/-- Claim C4 (code bug): a partial restore keeps a currently-tracked file
only if its identity is also a key of the backup's index, because the new
index is assembled from the backup's hash keys alone.  With live index
mapping h3 to file5.txt and backup index mapping h1 to file2.txt, restoring
the listed set [file2.txt] yields an index containing only file2.txt:
file5.txt — currently tracked and not in the listed set — is dropped,
contradicting the claim and the repo's own test (test_partial_restore
asserts file5.txt is kept). -/
theorem c4_partial_restore_drops_unlisted_current_files :
    restoreFileSubset [("h3", ["file5.txt"])] [("h1", ["file2.txt"])] ["file2.txt"]
      = Except.ok [("h1", ["file2.txt"])] ∧
    "file5.txt" ∈ filesOfDict [("h3", ["file5.txt"])] ∧
    ¬ "file5.txt" ∈ filesOfDict [("h1", ["file2.txt"])] :=
  ⟨rfl, by decide, by decide⟩

/-! ## C10 — HashManager identity cache -/

/-- Hash modes of `HashMode` (src/refacdir/backup/backup_modes.py). -/
inductive HashModeE
  | filename
  | filenameAndParent
  | sha256
deriving Repr, DecidableEq

/-- A view of the filesystem at the moment a hash is computed: the three
identity computations of `HashManager.get_file_hash`
(src/refacdir/backup/hash_manager.py:15-32).  `shaOf` is
`SafeFileOps.calculate_file_hash` applied to the file's *current* content,
so a changed file changes `shaOf`; the name-based modes never read content. -/
structure FileView where
  basenameOf : String → String
  parentJoin : String → String
  shaOf : String → String

/-- The identity `get_file_hash` computes when the cache misses. -/
def hmCompute (mode : HashModeE) (view : FileView) (p : String) : String :=
  match mode with
  | .filename => view.basenameOf p
  | .filenameAndParent => view.parentJoin p
  | .sha256 => view.shaOf p

/-- Embedding of `HashManager.get_file_hash`: consult `file_hash_cache`
first and return the cached value unchanged; otherwise compute from the
current view and store the result. -/
def hmGetFileHash (mode : HashModeE) (view : FileView)
    (cache : List (String × String)) (p : String) : String × List (String × String) :=
  match alGet cache p with
  | some h => (h, cache)
  | none =>
    let result := hmCompute mode view p
    (result, alSet cache p result)

/-- Embedding of `HashManager.verify_files_match`
(hash_manager.py:50-57): false when either file is missing, else compare
the two `get_file_hash` results (threading the cache). -/
def hmVerifyFilesMatch (mode : HashModeE) (view : FileView) (existsF : String → Bool)
    (cache : List (String × String)) (a b : String) : Bool × List (String × String) :=
  if ¬ (existsF a && existsF b) then (false, cache)
  else
    let ra := hmGetFileHash mode view cache a
    let rb := hmGetFileHash mode view ra.2 b
    (ra.1 == rb.1, rb.2)

/-- Claim C10: once `get_file_hash p` has returned `h` in a run, later calls
return exactly `h` with the cache unchanged, for every current filesystem
view (so the file is not re-read and on-disk changes are invisible); after
any call the returned value is cached, so all later calls agree with it;
and for two existing files with cached identities, `verify_files_match`
judges them equal exactly when those (possibly stale) identities are
equal. -/
theorem c10_hash_cache_is_sticky (mode : HashModeE) (cache : List (String × String))
    (p q hp hq : String) (existsF : String → Bool)
    (hcp : alGet cache p = some hp) (hcq : alGet cache q = some hq)
    (hep : existsF p = true) (heq : existsF q = true) :
    (∀ view : FileView, hmGetFileHash mode view cache p = (hp, cache)) ∧
    (∀ (view : FileView) (c : List (String × String)) (r : String),
      alGet c r = none →
      alGet (hmGetFileHash mode view c r).2 r = some (hmGetFileHash mode view c r).1) ∧
    (∀ view : FileView,
      (hmVerifyFilesMatch mode view existsF cache p q).fst = (hp == hq)) := by
  refine ⟨?_, ?_, ?_⟩
  · intro view
    simp [hmGetFileHash, hcp]
  · intro view c r hmiss
    simp [hmGetFileHash, hmiss, alGet_alSet_self]
  · intro view
    simp [hmVerifyFilesMatch, hep, heq, hmGetFileHash, hcp, hcq]

/-- Witness for C10: a concrete cache holding stale identities "x" for
"a.txt" and "x" for "b.txt"; both files exist; the cached value is returned
under any view and the files are judged matching. -/
theorem c10_hash_cache_is_sticky_witness :
    (∀ view : FileView,
      hmGetFileHash HashModeE.sha256 view [("a.txt", "x"), ("b.txt", "x")] "a.txt"
        = ("x", [("a.txt", "x"), ("b.txt", "x")])) ∧
    (∀ (view : FileView) (c : List (String × String)) (r : String),
      alGet c r = none →
      alGet (hmGetFileHash HashModeE.sha256 view c r).2 r
        = some (hmGetFileHash HashModeE.sha256 view c r).1) ∧
    (∀ view : FileView,
      (hmVerifyFilesMatch HashModeE.sha256 view (fun _ => true)
        [("a.txt", "x"), ("b.txt", "x")] "a.txt" "b.txt").fst = ("x" == "x")) :=
  c10_hash_cache_is_sticky HashModeE.sha256 [("a.txt", "x"), ("b.txt", "x")]
    "a.txt" "b.txt" "x" "x" (fun _ => true) (by decide) (by decide) rfl rfl

/-! ## C5 — BackupState.verify_integrity -/

/-- `BackupMode` (src/refacdir/backup/backup_modes.py). -/
inductive BackupModeE
  | pushAndRemove
  | push
  | pushDuplicates
  | mirror
  | mirrorDuplicates
deriving Repr, DecidableEq

/-- `BackupMapping.is_push_mode` (backup_mapping.py:161-162): PUSH,
PUSH_DUPLICATES and PUSH_AND_REMOVE are all push modes. -/
def is_push_mode (m : BackupModeE) : Bool :=
  m == BackupModeE.push || m == BackupModeE.pushDuplicates || m == BackupModeE.pushAndRemove

/-- `HashManager.verify_files_match` (hash_manager.py:50-57) with the
run's identity assignment: both files exist and their identities agree.
`identityOf` is the (cached, hence deterministic within a run) value of
`get_file_hash`. -/
def hmMatchB (existsF : String → Bool) (identityOf : String → String) (a b : String) : Bool :=
  existsF a && existsF b && (identityOf a == identityOf b)

/-- Per-file loop of `BackupState.verify_integrity` (backup_state.py:66-73)
run for modes PUSH and PUSH_DUPLICATES: each validated source file's mapped
target path must exist, else "Missing target file: ..." naming that path;
then `verify_files_match(source, target)` must hold, else
"Hash mismatch: ..." naming that path. -/
def verifyPushLoop (targetOf : String → String) (existsF : String → Bool)
    (identityOf : String → String) : List String → Bool × Option String
  | [] => (true, none)
  | f :: rest =>
    if existsF (targetOf f) = false then
      (false, some ("Missing target file: " ++ targetOf f))
    else if hmMatchB existsF identityOf f (targetOf f) = false then
      (false, some ("Hash mismatch: " ++ targetOf f))
    else verifyPushLoop targetOf existsF identityOf rest

/-- Embedding of `BackupState.verify_integrity` (backup_state.py:60-101).
The mode dispatch is literal: only PUSH and PUSH_DUPLICATES run the per-file
loop; MIRROR runs the relative-path set comparison, whose result is supplied
as `mirrorBranch` (that branch is outside the scope of every claim); every
other mode — including PUSH_AND_REMOVE and MIRROR_DUPLICATES — falls through
to `(True, None)`. -/
def verify_integrity (mode : BackupModeE) (sourceFiles : List String)
    (targetOf : String → String) (existsF : String → Bool)
    (identityOf : String → String) (mirrorBranch : Bool × Option String) :
    Bool × Option String :=
  if mode == BackupModeE.push || mode == BackupModeE.pushDuplicates then
    verifyPushLoop targetOf existsF identityOf sourceFiles
  else if mode == BackupModeE.mirror then mirrorBranch
  else (true, none)

/-- The amended per-file requirement: the mapped target path exists and
`verify_files_match(source, target)` holds. -/
def pushFileVerified (targetOf : String → String) (existsF : String → Bool)
    (identityOf : String → String) (f : String) : Bool :=
  existsF (targetOf f) && hmMatchB existsF identityOf f (targetOf f)

theorem verifyPushLoop_fst_true_iff (targetOf : String → String) (existsF : String → Bool)
    (identityOf : String → String) (fs : List String) :
    (verifyPushLoop targetOf existsF identityOf fs).fst = true ↔
      ∀ f ∈ fs, pushFileVerified targetOf existsF identityOf f = true := by
  induction fs with
  | nil => simp [verifyPushLoop]
  | cons f rest ih =>
    cases h1 : existsF (targetOf f) with
    | false => simp [verifyPushLoop, h1, pushFileVerified]
    | true =>
      cases h2 : hmMatchB existsF identityOf f (targetOf f) with
      | false => simp [verifyPushLoop, h1, h2, pushFileVerified]
      | true => simp [verifyPushLoop, h1, h2, pushFileVerified, ih]

theorem verifyPushLoop_fst_false_err (targetOf : String → String) (existsF : String → Bool)
    (identityOf : String → String) (fs : List String) :
    (verifyPushLoop targetOf existsF identityOf fs).fst = false →
      ∃ f ∈ fs,
        (verifyPushLoop targetOf existsF identityOf fs).snd
            = some ("Missing target file: " ++ targetOf f) ∨
        (verifyPushLoop targetOf existsF identityOf fs).snd
            = some ("Hash mismatch: " ++ targetOf f) := by
  induction fs with
  | nil => simp [verifyPushLoop]
  | cons f rest ih =>
    cases h1 : existsF (targetOf f) with
    | false =>
      intro _
      exact ⟨f, by simp, Or.inl (by simp [verifyPushLoop, h1])⟩
    | true =>
      cases h2 : hmMatchB existsF identityOf f (targetOf f) with
      | false =>
        intro _
        exact ⟨f, by simp, Or.inr (by simp [verifyPushLoop, h1, h2])⟩
      | true =>
        simp only [verifyPushLoop, h1, h2]
        intro h
        obtain ⟨g, hg, hor⟩ := ih (by simpa using h)
        exact ⟨g, by simp [hg], by simpa using hor⟩

/-- Claim C5 counterexample, refuting the claim in its two universal parts:
(a) PUSH_AND_REMOVE is a push mode (`is_push_mode` returns true for it),
yet `verify_integrity` performs no per-file check in that mode — with a
single validated source file whose mapped target path does not exist it
still returns `(True, None)` instead of failing with a "missing target
file" error; and (b) even in mode PUSH, the failure error does not name
both paths: for source "src/a.txt" whose mapped target "tgt/b.txt" is
missing, the returned error is exactly "Missing target file: tgt/b.txt",
in which the source path does not occur (the character sequence
"src/a.txt" is not an infix of the message), so the error names only the
mapped target path. -/
theorem c5_push_and_remove_skips_verification :
    (is_push_mode BackupModeE.pushAndRemove = true ∧
     verify_integrity BackupModeE.pushAndRemove ["src/a.txt"]
        (fun _ => "tgt/b.txt") (fun _ => false) (fun _ => "") (false, some "unused")
       = (true, none)) ∧
    (verify_integrity BackupModeE.push ["src/a.txt"]
        (fun _ => "tgt/b.txt") (fun _ => false) (fun _ => "") (false, some "unused")
       = (false, some "Missing target file: tgt/b.txt") ∧
     ¬ "src/a.txt".data <:+: "Missing target file: tgt/b.txt".data) :=
  ⟨⟨rfl, rfl⟩, rfl, by decide⟩

/-- Claim C5 as amended: for the push modes Push and PushDuplicates (the
code performs no per-file verification for PushRemove), `verify_integrity`
succeeds exactly when every validated source file exists at its mapped
target path with matching identity, and on failure returns an error naming
the mapped target path as a "Missing target file" or "Hash mismatch". -/
theorem c5_verify_integrity_push_modes (mode : BackupModeE)
    (hmode : mode = BackupModeE.push ∨ mode = BackupModeE.pushDuplicates)
    (sourceFiles : List String) (targetOf : String → String) (existsF : String → Bool)
    (identityOf : String → String) (mirrorBranch : Bool × Option String) :
    ((verify_integrity mode sourceFiles targetOf existsF identityOf mirrorBranch).fst = true ↔
      ∀ f ∈ sourceFiles, pushFileVerified targetOf existsF identityOf f = true) ∧
    ((verify_integrity mode sourceFiles targetOf existsF identityOf mirrorBranch).fst = false →
      ∃ f ∈ sourceFiles,
        (verify_integrity mode sourceFiles targetOf existsF identityOf mirrorBranch).snd
            = some ("Missing target file: " ++ targetOf f) ∨
        (verify_integrity mode sourceFiles targetOf existsF identityOf mirrorBranch).snd
            = some ("Hash mismatch: " ++ targetOf f)) := by
  have hv : verify_integrity mode sourceFiles targetOf existsF identityOf mirrorBranch
      = verifyPushLoop targetOf existsF identityOf sourceFiles := by
    rcases hmode with rfl | rfl <;> rfl
  rw [hv]
  exact ⟨verifyPushLoop_fst_true_iff _ _ _ _, verifyPushLoop_fst_false_err _ _ _ _⟩

/-- Witness for C5 at mode Push with one source file present and matching
at its mapped target. -/
theorem c5_verify_integrity_push_modes_witness :
    ((verify_integrity BackupModeE.push ["a.txt"] (fun _ => "t.txt") (fun _ => true)
        (fun _ => "h") (true, none)).fst = true ↔
      ∀ f ∈ ["a.txt"], pushFileVerified (fun _ => "t.txt") (fun _ => true)
        (fun _ => "h") f = true) ∧
    ((verify_integrity BackupModeE.push ["a.txt"] (fun _ => "t.txt") (fun _ => true)
        (fun _ => "h") (true, none)).fst = false →
      ∃ f ∈ ["a.txt"],
        (verify_integrity BackupModeE.push ["a.txt"] (fun _ => "t.txt") (fun _ => true)
            (fun _ => "h") (true, none)).snd
            = some ("Missing target file: " ++ (fun _ => "t.txt") f) ∨
        (verify_integrity BackupModeE.push ["a.txt"] (fun _ => "t.txt") (fun _ => true)
            (fun _ => "h") (true, none)).snd
            = some ("Hash mismatch: " ++ (fun _ => "t.txt") f)) :=
  c5_verify_integrity_push_modes BackupModeE.push (Or.inl rfl) ["a.txt"]
    (fun _ => "t.txt") (fun _ => true) (fun _ => "h") (true, none)

/-! ## C6 — SafeFileOps.atomic_copy -/

/-- A filesystem: file path to content.  Directories are not modelled;
`os.makedirs(target_dir, exist_ok=True)` has no effect on file contents. -/
abbrev FS := List (String × Content)

/-- Environment fixing the outcomes of the fallible operations inside one
`atomic_copy` call (safe_file_ops.py:40-82). -/
structure CopyEnv where
  /-- Outcome of `shutil.copy2(source_path, temp_path)`: `Except.ok c` when
  the copy completes leaving bytes `c` in the temp file — equal to the
  source's bytes unless the source changes mid-copy or the medium corrupts
  them, which is exactly what `verify` guards against — and
  `Except.error e` when it raises message `e`. -/
  copyOutcome : Except String Content
  /-- Bytes present in the temp file at the moment `shutil.copy2` raised. -/
  copyLeftover : Content
  /-- `some e` when `os.replace(temp_path, target_path)` raises `e`; the
  rename is atomic, so when it fails the target entry is untouched. -/
  replaceOutcome : Option String

/-- `SafeFileOps.verify_files_match` (safe_file_ops.py:28-37): both files
exist, their sizes agree, and their SHA-256 digests agree.  By
`safeFileOpsFedBytes_eq` the digest is a function of the full content, so
digest comparison is modelled as comparison of the contents. -/
def sfoVerifyFilesMatch (fs : FS) (a b : String) : Bool :=
  match alGet fs a, alGet fs b with
  | some ca, some cb => ca.length == cb.length && ca == cb
  | _, _ => false

/-- Embedding of `SafeFileOps.atomic_copy(source_path, target_path, verify)`
(safe_file_ops.py:40-82): check the source exists; `tempfile.mkstemp`
creates a fresh empty file at `tempPath`; copy the source onto the temp
file; optionally verify temp against source; `os.replace` the temp file
onto the target in one atomic rename.  Every caught failure removes the
temp file and returns `(False, error)`. -/
def atomic_copy (env : CopyEnv) (fs : FS) (src dst tempPath : String) (verify : Bool) :
    (Bool × Option String) × FS :=
  match alGet fs src with
  | none => ((false, some ("Source file does not exist: " ++ src)), fs)
  | some _ =>
    let fs1 := alSet fs tempPath []
    match env.copyOutcome with
    | Except.error e =>
      ((false, some e), alRemove (alSet fs1 tempPath env.copyLeftover) tempPath)
    | Except.ok copied =>
      let fs2 := alSet fs1 tempPath copied
      if verify && !(sfoVerifyFilesMatch fs2 src tempPath) then
        ((false, some "Verification failed: copied file does not match source"),
          alRemove fs2 tempPath)
      else
        match env.replaceOutcome with
        | some e => ((false, some e), alRemove fs2 tempPath)
        | none => ((true, none), alSet (alRemove fs2 tempPath) dst copied)

/-- Claim C6: whenever `atomic_copy` fails — source missing, copy error,
verification mismatch, or a failing rename — the temp file is gone, the
target file's entry is exactly what it was before the call (prior content
or still absent), and the returned failure carries the original error of
the failing operation; on success the temp file is gone and the target
holds the complete copied content, which equals the source's content when
verification was requested. -/
theorem c6_atomic_copy_no_partial_target (env : CopyEnv) (fs : FS)
    (src dst tempPath : String) (verify : Bool)
    (hts : tempPath ≠ src) (htd : tempPath ≠ dst) (hfresh : alGet fs tempPath = none) :
    ((atomic_copy env fs src dst tempPath verify).1.1 = false →
      alGet (atomic_copy env fs src dst tempPath verify).2 dst = alGet fs dst ∧
      alGet (atomic_copy env fs src dst tempPath verify).2 tempPath = none ∧
      ((atomic_copy env fs src dst tempPath verify).1.2
          = some ("Source file does not exist: " ++ src) ∨
       (∃ e, env.copyOutcome = Except.error e ∧
          (atomic_copy env fs src dst tempPath verify).1.2 = some e) ∨
       (atomic_copy env fs src dst tempPath verify).1.2
          = some "Verification failed: copied file does not match source" ∨
       (∃ e, env.replaceOutcome = some e ∧
          (atomic_copy env fs src dst tempPath verify).1.2 = some e))) ∧
    ((atomic_copy env fs src dst tempPath verify).1.1 = true →
      alGet (atomic_copy env fs src dst tempPath verify).2 tempPath = none ∧
      ∃ c, env.copyOutcome = Except.ok c ∧
        alGet (atomic_copy env fs src dst tempPath verify).2 dst = some c ∧
        (verify = true → alGet fs src = some c)) := by
  have hdt : dst ≠ tempPath := Ne.symm htd
  have hst : src ≠ tempPath := Ne.symm hts
  rcases hsrc : alGet fs src with _ | srcContent
  · refine ⟨fun _ => ⟨?_, ?_, Or.inl ?_⟩, fun htr => ?_⟩
    · simp [atomic_copy, hsrc]
    · simp [atomic_copy, hsrc, hfresh]
    · simp [atomic_copy, hsrc]
    · simp [atomic_copy, hsrc] at htr
  · rcases hcopy : env.copyOutcome with e | copied
    · refine ⟨fun _ => ⟨?_, ?_, Or.inr (Or.inl ⟨e, rfl, ?_⟩)⟩, fun htr => ?_⟩
      · simp [atomic_copy, hsrc, hcopy,
          alGet_alRemove_ne _ tempPath dst hdt, alGet_alSet_ne _ tempPath dst _ hdt]
      · simp [atomic_copy, hsrc, hcopy, alGet_alRemove_self]
      · simp [atomic_copy, hsrc, hcopy]
      · simp [atomic_copy, hsrc, hcopy] at htr
    · cases hvm : verify && !(sfoVerifyFilesMatch (alSet (alSet fs tempPath []) tempPath copied)
          src tempPath) with
      | true =>
        refine ⟨fun _ => ⟨?_, ?_, Or.inr (Or.inr (Or.inl ?_))⟩, fun htr => ?_⟩
        · simp [atomic_copy, hsrc, hcopy, hvm,
            alGet_alRemove_ne _ tempPath dst hdt, alGet_alSet_ne _ tempPath dst _ hdt]
        · simp [atomic_copy, hsrc, hcopy, hvm, alGet_alRemove_self]
        · simp [atomic_copy, hsrc, hcopy, hvm]
        · simp [atomic_copy, hsrc, hcopy, hvm] at htr
      | false =>
        rcases hrep : env.replaceOutcome with _ | e
        · refine ⟨fun hfa => ?_, fun _ => ⟨?_, copied, rfl, ?_, ?_⟩⟩
          · simp [atomic_copy, hsrc, hcopy, hvm, hrep] at hfa
          · simp [atomic_copy, hsrc, hcopy, hvm, hrep,
              alGet_alSet_ne _ dst tempPath _ htd, alGet_alRemove_self]
          · simp [atomic_copy, hsrc, hcopy, hvm, hrep, alGet_alSet_self]
          · intro hv
            subst hv
            rw [Bool.true_and, Bool.not_eq_false'] at hvm
            rw [sfoVerifyFilesMatch, alGet_alSet_ne _ tempPath src _ hst,
              alGet_alSet_ne _ tempPath src _ hst, hsrc, alGet_alSet_self] at hvm
            have h2 : (srcContent.length == copied.length && srcContent == copied) = true := hvm
            have := (Bool.and_eq_true _ _).mp h2
            exact congrArg some (eq_of_beq this.2)
        · refine ⟨fun _ => ⟨?_, ?_, Or.inr (Or.inr (Or.inr ⟨e, rfl, ?_⟩))⟩, fun htr => ?_⟩
          · simp [atomic_copy, hsrc, hcopy, hvm, hrep,
              alGet_alRemove_ne _ tempPath dst hdt, alGet_alSet_ne _ tempPath dst _ hdt]
          · simp [atomic_copy, hsrc, hcopy, hvm, hrep, alGet_alRemove_self]
          · simp [atomic_copy, hsrc, hcopy, hvm, hrep]
          · simp [atomic_copy, hsrc, hcopy, hvm, hrep] at htr

/-- Witness for C6 at a concrete successful verified copy of a two-byte
file. -/
theorem c6_atomic_copy_no_partial_target_witness :
    ((atomic_copy ⟨Except.ok [1, 2], [], none⟩ [("s", [1, 2])] "s" "d" "t" true).1.1 = false →
      alGet (atomic_copy ⟨Except.ok [1, 2], [], none⟩ [("s", [1, 2])] "s" "d" "t" true).2 "d"
          = alGet [("s", [1, 2])] "d" ∧
      alGet (atomic_copy ⟨Except.ok [1, 2], [], none⟩ [("s", [1, 2])] "s" "d" "t" true).2 "t"
          = none ∧
      ((atomic_copy ⟨Except.ok [1, 2], [], none⟩ [("s", [1, 2])] "s" "d" "t" true).1.2
          = some ("Source file does not exist: " ++ "s") ∨
       (∃ e, (⟨Except.ok [1, 2], [], none⟩ : CopyEnv).copyOutcome = Except.error e ∧
          (atomic_copy ⟨Except.ok [1, 2], [], none⟩ [("s", [1, 2])] "s" "d" "t" true).1.2
            = some e) ∨
       (atomic_copy ⟨Except.ok [1, 2], [], none⟩ [("s", [1, 2])] "s" "d" "t" true).1.2
          = some "Verification failed: copied file does not match source" ∨
       (∃ e, (⟨Except.ok [1, 2], [], none⟩ : CopyEnv).replaceOutcome = some e ∧
          (atomic_copy ⟨Except.ok [1, 2], [], none⟩ [("s", [1, 2])] "s" "d" "t" true).1.2
            = some e))) ∧
    ((atomic_copy ⟨Except.ok [1, 2], [], none⟩ [("s", [1, 2])] "s" "d" "t" true).1.1 = true →
      alGet (atomic_copy ⟨Except.ok [1, 2], [], none⟩ [("s", [1, 2])] "s" "d" "t" true).2 "t"
          = none ∧
      ∃ c, (⟨Except.ok [1, 2], [], none⟩ : CopyEnv).copyOutcome = Except.ok c ∧
        alGet (atomic_copy ⟨Except.ok [1, 2], [], none⟩ [("s", [1, 2])] "s" "d" "t" true).2 "d"
          = some c ∧
        (true = true → alGet [("s", [1, 2])] "s" = some c)) :=
  c6_atomic_copy_no_partial_target ⟨Except.ok [1, 2], [], none⟩ [("s", [1, 2])]
    "s" "d" "t" true (by decide) (by decide) (by decide)

/-! ## C7 — restore checksum gate -/

/-- Snapshot metadata fields consulted while restoring
(`BackupMetadata`, backup_source_data.py:39-108). -/
structure SnapshotMeta where
  checksum : String
  compressed : Bool
deriving Repr, DecidableEq

/-- Backup selector of `restore_from_backup` (backup_source_data.py:746-761):
an explicit path, the resolved result of `_get_backup_by_date` or
`_get_backup_by_description`, or the newest entry of
`_get_available_backups()`. -/
inductive RestoreSelector
  | explicitPath (p : String)
  | byDate (resolved : Option String)
  | byDescription (resolved : Option String)
  | mostRecent

/-- Environment of one restore call: the store's backup directory contents
and the outcomes of its fallible sub-operations. -/
structure RestoreEnv where
  /-- `_get_available_backups()` paths, newest first. -/
  availableBackups : List String
  /-- `_load_metadata`. -/
  metadataOf : String → Option SnapshotMeta
  /-- `_calculate_checksum` over the snapshot's current on-disk bytes. -/
  checksumOf : String → String
  /-- `os.path.exists`. -/
  existsF : String → Bool
  /-- Outcome of `_backup_current_file("Auto-backup before restore")`;
  that call writes snapshot files only and never touches the hash index. -/
  safetyBackup : Bool × Option String
  /-- Unpickling (after optional decompression) of the snapshot file:
  the stored schema version and hash index, or the raised error. -/
  loadBackup : String → Except String (Nat × HashDict)

/-- `BackupSourceData.VERSION` (backup_source_data.py:249). -/
def STORE_VERSION : Nat := 2

/-- `BackupSourceData._verify_backup_integrity`
(backup_source_data.py:466-476). -/
def verify_backup_integrity (env : RestoreEnv) (path : String) : Bool × Option String :=
  match env.metadataOf path with
  | none => (false, some "No metadata found for backup")
  | some md =>
    if env.checksumOf path ≠ md.checksum then
      (false, some "Backup file checksum mismatch - file may be corrupted")
    else (true, none)

/-- Body of `restore_from_backup` once the backup path is known
(backup_source_data.py:763-839): existence check, integrity check, safety
backup of the current state, load (the outer `except` turns a load error
into a failure), version gate, then the partial or full replacement of the
live hash index.  The second component of the result is the live hash
index after the call. -/
def restoreWithPath (env : RestoreEnv) (hashDict : HashDict) (p : String)
    (files : Option (List String)) : (Bool × Option String) × HashDict :=
  if env.existsF p = false then
    ((false, some ("Backup file not found: " ++ p)), hashDict)
  else
    match verify_backup_integrity env p with
    | (false, err) => ((false, err), hashDict)
    | (true, _) =>
      if env.safetyBackup.1 = false then
        ((false, some ("Failed to backup current state: "
            ++ env.safetyBackup.2.getD "")), hashDict)
      else
        match env.loadBackup p with
        | Except.error e =>
          ((false, some ("Failed to restore from backup: " ++ e)), hashDict)
        | Except.ok (ver, backupDict) =>
          if STORE_VERSION < ver then
            ((false, some ("Backup version " ++ toString ver
                ++ " is newer than current version " ++ toString STORE_VERSION)), hashDict)
          else
            match files with
            | some fl =>
              match restoreFileSubset hashDict backupDict fl with
              | Except.error e => ((false, some e), hashDict)
              | Except.ok newDict => ((true, none), newDict)
            | none => ((true, none), backupDict)

/-- `BackupSourceData.restore_from_backup` (backup_source_data.py:726-845):
resolve the selector to a backup path, then run `restoreWithPath`.  The
lock acquisition wrapping the body always returns (see `acquire_lock`) and
never touches the hash index. -/
def restore_from_backup (env : RestoreEnv) (hashDict : HashDict)
    (selector : RestoreSelector) (files : Option (List String)) :
    (Bool × Option String) × HashDict :=
  match selector with
  | RestoreSelector.explicitPath p => restoreWithPath env hashDict p files
  | RestoreSelector.byDate r =>
    match r with
    | none => ((false, some "Could not find matching backup"), hashDict)
    | some p => restoreWithPath env hashDict p files
  | RestoreSelector.byDescription r =>
    match r with
    | none => ((false, some "Could not find matching backup"), hashDict)
    | some p => restoreWithPath env hashDict p files
  | RestoreSelector.mostRecent =>
    match env.availableBackups.head? with
    | none => ((false, some "No backups available"), hashDict)
    | some p => restoreWithPath env hashDict p files

/-- Claim C7: for every snapshot whose on-disk bytes hash differently from
the checksum recorded in its metadata, `restore_from_backup` fails with the
checksum-mismatch error and returns the live hash index unchanged — no
mutation of the index happens before the checksum gate passes. -/
theorem c7_checksum_gate_protects_live_index (env : RestoreEnv) (hashDict : HashDict)
    (p : String) (files : Option (List String)) (md : SnapshotMeta)
    (hex : env.existsF p = true)
    (hmd : env.metadataOf p = some md)
    (hck : env.checksumOf p ≠ md.checksum) :
    restore_from_backup env hashDict (RestoreSelector.explicitPath p) files
      = ((false, some "Backup file checksum mismatch - file may be corrupted"), hashDict) := by
  simp [restore_from_backup, restoreWithPath, verify_backup_integrity, hex, hmd, hck]

/-- Concrete restore environment for the C7 witness: one snapshot "b1"
whose recorded checksum is "good" but whose on-disk bytes hash to "bad". -/
def c7Env : RestoreEnv :=
  { availableBackups := ["b1"]
  , metadataOf := fun q => if q = "b1" then some ⟨"good", false⟩ else none
  , checksumOf := fun _ => "bad"
  , existsF := fun _ => true
  , safetyBackup := (true, none)
  , loadBackup := fun _ => Except.ok (2, []) }

/-- Witness for C7 at the concrete corrupted snapshot "b1". -/
theorem c7_checksum_gate_protects_live_index_witness :
    restore_from_backup c7Env [("h1", ["f1.txt"])] (RestoreSelector.explicitPath "b1") none
      = ((false, some "Backup file checksum mismatch - file may be corrupted"),
         [("h1", ["f1.txt"])]) :=
  c7_checksum_gate_protects_live_index c7Env [("h1", ["f1.txt"])] "b1" none
    ⟨"good", false⟩ rfl (by simp [c7Env]) (by decide)

/-! ## C8 — push idempotence -/

/-- `FailureType` (backup_mapping.py:38-43). -/
inductive FailureKind
  | moveFile
  | removeSourceFile
  | removeSourceFileTargetNoexist
  | removeStaleFile
  | removeStaleDirectory
deriving Repr, DecidableEq

/-- A recorded failure `[FailureType, error, target, source]`
(backup_mapping.py:184,203,210). -/
structure FailureRec where
  kind : FailureKind
  message : String
  target : String
  source : String
deriving Repr, DecidableEq

/-- `_target_hash_dict`: target filepath to identity, a `defaultdict(str)`
(missing keys read as ""). -/
abbrev TargetDict := List (String × String)

def targetHashGet (tgt : TargetDict) (p : String) : String := (alGet tgt p).getD ""

/-- Environment of one `push` run: path mapping, filesystem, and the
outcomes of the fallible per-file operations. -/
structure PushEnv where
  /-- `_build_target_path` (backup_mapping.py:146-152). -/
  targetOf : String → String
  /-- `os.path.exists`. -/
  existsF : String → Bool
  /-- Exception raised by `move_func(source, target)`, if any. -/
  moveError : String → String → Option String
  /-- `_is_file_removal_excluded` (backup_mapping.py:192-196). -/
  removalExcluded : String → Bool

/-- Run-scoped mutable state touched by `push` with test=False: modified
target files, failures, the arguments of each `move_func` call (the file
transfers) in order, the removed source files, and the directories
created. -/
structure PushState where
  modifiedTargetFiles : List String
  failures : List FailureRec
  transfers : List (String × String)
  removals : List String
  createdDirs : List String
deriving Repr, DecidableEq

def initPushState : PushState := ⟨[], [], [], [], []⟩

/-- `BackupMapping._move_file` (backup_mapping.py:169-184), test=False:
compute the target path, call `move_func` from the external source when
given else from the source path; on success record the transfer and the
modified target file, on exception record a MOVE_FILE failure. -/
def move_file (env : PushEnv) (st : PushState) (sourcePath : String)
    (externalSource : Option String) : PushState :=
  let targetPath := env.targetOf sourcePath
  let actualSource := externalSource.getD sourcePath
  match env.moveError actualSource targetPath with
  | some e =>
    { st with failures := st.failures ++ [⟨FailureKind.moveFile, e, targetPath, sourcePath⟩] }
  | none =>
    { st with transfers := st.transfers ++ [(actualSource, targetPath)],
              modifiedTargetFiles := st.modifiedTargetFiles ++ [targetPath] }

/-- `BackupMapping._remove_source_file` (backup_mapping.py:198-210),
test=False.  `remove_file` prints on failure instead of raising, so
removal errors beyond the missing-target case are not modelled. -/
def remove_source_file (env : PushEnv) (st : PushState) (sourcePath targetPath : String) :
    PushState :=
  if env.removalExcluded sourcePath then st
  else if env.existsF targetPath = false then
    { st with failures := st.failures ++
        [⟨FailureKind.removeSourceFileTargetNoexist, "Backup file not found",
          targetPath, sourcePath⟩] }
  else { st with removals := st.removals ++ [sourcePath] }

/-- `BackupMapping._has_duplicates_in_target` (backup_mapping.py:212-215):
copy the target identity values, drop one occurrence of the hash, and test
whether it is still present.  In the source `all_hashes.remove(_hash)`
raises when the hash is absent, but the method is only called from the
branch where the hash is among the target values. -/
def has_duplicates_in_target (tgt : TargetDict) (h : String) : Bool :=
  ((tgt.map Prod.snd).erase h).contains h

/-- The relocate-in-place search of `_ensure_files`
(backup_mapping.py:231-242): walk the target index for the first entry with
the wanted identity that is not an already-modified target file and still
exists; move it over the mapped path, and under move semantics also remove
the source file; when no entry qualifies, fall back to a direct transfer. -/
def relocateFromTarget (env : PushEnv) (isMove : Bool) (sourceHash : String)
    (sourcePath targetPath : String) (st : PushState) :
    List (String × String) → PushState
  | [] => move_file env st sourcePath none
  | (fp, h) :: rest =>
    if (h == sourceHash) && !(st.modifiedTargetFiles.contains fp) && env.existsF fp then
      let st1 := move_file env st sourcePath (some fp)
      if isMove then remove_source_file env st1 sourcePath targetPath else st1
    else relocateFromTarget env isMove sourceHash sourcePath targetPath st rest

/-- `BackupMapping._ensure_files` (backup_mapping.py:217-244), test=False:
when the bucket's identity is absent from the target values, transfer every
file of the bucket; otherwise, per file, skip it when its mapped target
path exists with the same identity (removing the source under move
semantics), and otherwise transfer — directly when the identity is
duplicated in the target, else via the relocate-in-place search. -/
def ensure_files (env : PushEnv) (isMove : Bool) (tgt : TargetDict)
    (sourceHash : String) (sourceFiles : List String) (st : PushState) : PushState :=
  if ¬ (tgt.map Prod.snd).contains sourceHash then
    sourceFiles.foldl (fun s f => move_file env s f none) st
  else
    sourceFiles.foldl (fun s f =>
      let targetPath := env.targetOf f
      if !(env.existsF targetPath) || (targetHashGet tgt targetPath != sourceHash) then
        if has_duplicates_in_target tgt sourceHash then
          move_file env s f none
        else
          relocateFromTarget env isMove sourceHash f targetPath s tgt
      else if isMove then
        remove_source_file env s f targetPath
      else s) st

/-- `BackupMapping.push` (backup_mapping.py:246-258), test=False:
create every directory of `source_dirs − target_dirs` (the set difference
and sort only affect order, which the claims do not consult), then run
`_ensure_files` on every source bucket.  `isMove` is whether `move_func`
is `Utils.move` (mode PUSH_AND_REMOVE) rather than `Utils.copy`. -/
def push (env : PushEnv) (isMove : Bool) (sourceDirs targetDirs : List String)
    (tgt : TargetDict) (sourceDict : HashDict) (st : PushState) : PushState :=
  let newDirs := sourceDirs.filter (fun d => !(targetDirs.contains d))
  let st0 := { st with createdDirs := st.createdDirs ++ newDirs }
  sourceDict.foldl (fun s entry => ensure_files env isMove tgt entry.1 entry.2 s) st0

theorem alGet_mem_map_snd {α : Type} [BEq α] [LawfulBEq α]
    (l : List (String × α)) (k : String) (v : α) (h : alGet l k = some v) :
    (l.map Prod.snd).contains v = true := by
  induction l with
  | nil => simp [alGet] at h
  | cons e rest ih =>
    rw [alGet] at h
    by_cases he : e.1 = k
    · rw [if_pos he] at h
      obtain rfl : e.2 = v := by injection h
      simp
    · rw [if_neg he] at h
      have hmem : v ∈ rest.map Prod.snd := by simpa using ih h
      obtain ⟨x, hx, hxe⟩ := List.mem_map.mp hmem
      simp
      exact Or.inr ⟨x.1, by rw [← hxe]; simpa using hx⟩

theorem foldl_congr_id {α β : Type} (φ : β → α → β) (l : List α)
    (h : ∀ b, ∀ a ∈ l, φ b a = b) : ∀ b, l.foldl φ b = b := by
  induction l with
  | nil => intro b; rfl
  | cons a rest ih =>
    intro b
    rw [List.foldl_cons, h b a (by simp)]
    exact ih (fun b' a' ha' => h b' a' (by simp [ha'])) b

theorem ensure_files_id (env : PushEnv) (tgt : TargetDict) (h : String)
    (files : List String) (st : PushState)
    (hf : ∀ f ∈ files, env.existsF (env.targetOf f) = true ∧
      alGet tgt (env.targetOf f) = some h) :
    ensure_files env false tgt h files st = st := by
  have hstep : ∀ (s : PushState), ∀ f ∈ files,
      (fun (s : PushState) (f : String) =>
        let targetPath := env.targetOf f
        if !(env.existsF targetPath) || (targetHashGet tgt targetPath != h) then
          if has_duplicates_in_target tgt h then
            move_file env s f none
          else
            relocateFromTarget env false h f targetPath s tgt
        else if false then
          remove_source_file env s f targetPath
        else s) s f = s := by
    intro s f hfmem
    obtain ⟨he, hg⟩ := hf f hfmem
    simp [targetHashGet, he, hg]
  rcases hfiles : files with _ | ⟨f0, rest⟩
  · simp [ensure_files]
  · have hcont : (tgt.map Prod.snd).contains h = true :=
      alGet_mem_map_snd tgt (env.targetOf f0) h
        (hf f0 (by simp [hfiles])).2
    rw [ensure_files, if_neg (not_not_intro hcont)]
    exact foldl_congr_id _ _ (by rw [← hfiles]; exact hstep) st

/-- Claim C8: when the source and target trees are unchanged after a
completed Push-mode run — every file of every source bucket exists at its
mapped target path and the target index records the bucket's identity
there, and every source directory already exists at the target — a second
Push run performs zero file transfers, records zero failures (and creates
no directories, removes nothing, and modifies no target file). -/
theorem c8_second_push_run_is_noop (env : PushEnv) (tgt : TargetDict)
    (sourceDict : HashDict) (sourceDirs targetDirs : List String)
    (hdirs : ∀ d ∈ sourceDirs, targetDirs.contains d = true)
    (hmatch : ∀ e ∈ sourceDict, ∀ f ∈ e.2,
      env.existsF (env.targetOf f) = true ∧ alGet tgt (env.targetOf f) = some e.1) :
    (push env false sourceDirs targetDirs tgt sourceDict initPushState).transfers = [] ∧
    (push env false sourceDirs targetDirs tgt sourceDict initPushState).failures = [] := by
  have hnd : sourceDirs.filter (fun d => !(targetDirs.contains d)) = [] := by
    rw [List.filter_eq_nil_iff]
    intro a ha
    simpa using hdirs a ha
  have hstate : push env false sourceDirs targetDirs tgt sourceDict initPushState
      = initPushState := by
    rw [push]
    simp only [hnd, List.append_nil]
    have hfold : ∀ st : PushState,
        sourceDict.foldl (fun s entry => ensure_files env false tgt entry.1 entry.2 s) st
          = st :=
      foldl_congr_id _ _ (fun st e he => ensure_files_id env tgt e.1 e.2 st (hmatch e he))
    rw [hfold]
  rw [hstate]
  exact ⟨rfl, rfl⟩

/-- Push environment for the C8 witness: one source file "a" whose mapped
target "t" exists and carries the bucket's identity "h". -/
def c8Env : PushEnv :=
  { targetOf := fun _ => "t"
  , existsF := fun _ => true
  , moveError := fun _ _ => none
  , removalExcluded := fun _ => false }

/-- Witness for C8 at a concrete matched source/target pair. -/
theorem c8_second_push_run_is_noop_witness :
    (push c8Env false ["d"] ["d"] [("t", "h")] [("h", ["a"])] initPushState).transfers
        = [] ∧
    (push c8Env false ["d"] ["d"] [("t", "h")] [("h", ["a"])] initPushState).failures
        = [] :=
  c8_second_push_run_is_noop c8Env [("t", "h")] [("h", ["a"])] ["d"] ["d"]
    (by decide) (by decide)

/-! ## C9 — resumable snapshot save -/

/-- `BackupSourceData.FILEPATH` (backup_source_data.py:243). -/
def STORE_FILEPATH : String := "backup_mapping_data.pkl"

/-- `BackupSourceData.TEMP_SUFFIX` (backup_source_data.py:256). -/
def STORE_TEMP_SUFFIX : String := ".tmp"

/-- `BackupSourceData._get_backup_filepath` (backup_source_data.py:323-326):
the backup path is rebuilt on every call from the current wall-clock
time formatted to one-second resolution
(`"%Y%m%d_%H%M%S"`); path joining is written with "/". -/
def get_backup_filepath (backupDir timestamp : String) : String :=
  backupDir ++ "/" ++ STORE_FILEPATH ++ "." ++ timestamp

/-- Partial-backup metadata fields consulted when a save starts
(`BackupMetadata.partial`, `BackupMetadata.bytes_written`). -/
structure ResumeMeta where
  partialFlag : Bool
  bytesWritten : Nat
deriving Repr, DecidableEq

/-- Filesystem facts consulted by the resume check. -/
structure ResumeEnv where
  existsF : String → Bool
  metadataOf : String → Option ResumeMeta

/-- Resume detection at the top of `BackupSourceData._backup_current_file`
(backup_source_data.py:569-586): compute the backup path from the current
timestamp, look for `backup_path + ".tmp"`; resume from
`metadata.bytes_written` only when that exact temp file exists and its
metadata is marked partial; otherwise — including when an earlier
interrupted attempt left its temp file at a path built from a *different*
timestamp — start at offset 0 (a found non-partial temp file is removed
first).  Returns the start offset and whether the write resumes. -/
def resume_start_pos (env : ResumeEnv) (backupDir nowStamp : String) : Nat × Bool :=
  let tempPath := get_backup_filepath backupDir nowStamp ++ STORE_TEMP_SUFFIX
  if env.existsF tempPath then
    match env.metadataOf tempPath with
    | some md => if md.partialFlag then (md.bytesWritten, true) else (0, false)
    | none => (0, false)
  else (0, false)

/-- Filesystem left by a save interrupted at byte offset 1000 during
wall-clock second 20240101_120000: the temp file of that attempt exists at
that second's timestamped path with metadata partial=true,
bytes_written=1000. -/
def c9InterruptedEnv : ResumeEnv :=
  { existsF := fun p =>
      p == get_backup_filepath ".backup_data" "20240101_120000" ++ STORE_TEMP_SUFFIX
  , metadataOf := fun p =>
      if p == get_backup_filepath ".backup_data" "20240101_120000" ++ STORE_TEMP_SUFFIX then
        some ⟨true, 1000⟩
      else none }

/-- Claim C9 (code bug): re-invoking save resumes from offset N only when
the re-invocation falls in the same wall-clock second as the interrupted
attempt, because the temp path is rebuilt from the current timestamp.  At
any later second the freshly computed temp path differs, the existing
partial temp file is not found, and the write restarts at offset 0 instead
of resuming from N=1000. -/
theorem c9_resume_keyed_to_current_second :
    resume_start_pos c9InterruptedEnv ".backup_data" "20240101_120000" = (1000, true) ∧
    resume_start_pos c9InterruptedEnv ".backup_data" "20240101_120001" = (0, false) := by
  decide

end Refacdir
